import Mathlib

/-!
Verification development for the `rw_wheel` reaction-wheel driver.

The definitions below are a shallow embedding of `src/rw_wheel/driver.py`
and `src/address_scanner.py`: byte strings become `List Nat` (each element
a byte value `< 256`), exceptions become explicit result constructors, and
the external `crcmod` CRC routine is embedded by its table-driven
reflected algorithm.  Theorems at the end of the file settle the spec
claims against these definitions.
-/

deriving instance DecidableEq for Except

namespace RwWheel

/-! ## SLIP framing constants (driver.py lines 24-27) -/

def FEND : Nat := 0xC0
def FESC : Nat := 0xDB
def TFEND : Nat := 0xDC
def TFESC : Nat := 0xDD

/-! ## SLIP encoding (driver.py `_slip_encode`, lines 86-100)

The Python function appends `FEND`, then for each data byte appends
`[FESC, TFEND]` if it is `FEND`, `[FESC, TFESC]` if it is `FESC`, and the
byte itself otherwise, and finally appends a closing `FEND`. -/

def slip_escape_byte (b : Nat) : List Nat :=
  if b = FEND then [FESC, TFEND]
  else if b = FESC then [FESC, TFESC]
  else [b]

def slip_encode_body : List Nat → List Nat
  | [] => []
  | b :: rest => slip_escape_byte b ++ slip_encode_body rest

def slip_encode (data : List Nat) : List Nat :=
  [FEND] ++ slip_encode_body data ++ [FEND]

/-! ## SLIP decoding (driver.py `_slip_decode`, lines 102-120)

The Python function returns `None` when the frame does not start and end
with `FEND`.  Otherwise it strips the two delimiters and walks the
interior: on `FESC` it advances and inspects the next byte — appending
`FEND` for `TFEND`, `FESC` for `TFESC`, and nothing for any other value —
and a `FESC` that is the final interior byte makes `data[i]` go out of
range, raising `IndexError`.  `SlipResult` keeps the three observable
outcomes apart: a returned byte string, the `None` return, and the
`IndexError` crash. -/

inductive SlipResult where
  | ok (data : List Nat)
  | noneResult
  | indexError
deriving DecidableEq, Repr

def slip_decode_loop : List Nat → Option (List Nat)
  | [] => some []
  | b :: rest =>
    if b = FESC then
      match rest with
      | [] => none
      | t :: rest2 =>
        let piece := if t = TFEND then [FEND] else if t = TFESC then [FESC] else []
        (slip_decode_loop rest2).map (fun d => piece ++ d)
    else
      (slip_decode_loop rest).map (fun d => b :: d)

def slip_decode (frame : List Nat) : SlipResult :=
  if frame.head? = some FEND ∧ frame.getLast? = some FEND then
    match slip_decode_loop ((frame.drop 1).dropLast) with
    | some d => .ok d
    | none => .indexError
  else
    .noneResult

/-- A frame interior on which the Python decode loop reads past the end of
the buffer: an unescaped `FESC` in final position. -/
def dangling_esc : List Nat → Bool
  | [] => false
  | [b] => b == FESC
  | b :: t :: rest =>
    if b == FESC then dangling_esc rest else dangling_esc (t :: rest)

/-! ## CRC engine (driver.py line 32)

The driver builds its CRC function with
`crcmod.mkCrcFun(0x11021, initCrc=0xFFFF, rev=True, xorOut=0x0000)`.
The definitions below embed what `crcmod` computes for these parameters:
it bit-reverses the low 16 bits of the polynomial (`_bitrev`), builds a
256-entry table where entry `i` is eight LSB-first shift/xor rounds
applied to `i` (`_bytecrc_r`), and folds
`crc = table[(crc ^ byte) & 0xFF] ^ (crc >> 8)` over the data starting
from `initCrc & 0xFFFF`, with no final xor (`xorOut = 0`). -/

def bitrev_loop : Nat → Nat → Nat → Nat
  | 0, _, y => y
  | n + 1, x, y => bitrev_loop n (x / 2) (y * 2 + x % 2)

/-- crcmod's reversed polynomial: `_bitrev(0x11021 & 0xFFFF, 16)`. -/
def crcmod_poly : Nat := bitrev_loop 16 (0x11021 &&& 0xFFFF) 0

/-- One LSB-first CRC round: shift right, xor the polynomial when the
dropped bit was set. -/
def crc_round (poly c : Nat) : Nat :=
  if c % 2 = 1 then (c / 2) ^^^ poly else c / 2

def crc_rounds (poly : Nat) : Nat → Nat → Nat
  | 0, c => c
  | n + 1, c => crc_rounds poly n (crc_round poly c)

/-- crcmod's `_bytecrc_r`: eight LSB-first rounds, used as table entry. -/
def crcmod_table (i : Nat) : Nat := crc_rounds crcmod_poly 8 i

/-- crcmod's `_crc16r` inner step:
`crc = table[(crc ^ d) & 0xFF] ^ (crc >> 8)`. -/
def crc16r_update (c d : Nat) : Nat :=
  crcmod_table ((c ^^^ d) &&& 0xFF) ^^^ (c >>> 8)

/-- The driver's `_crc_func`: crcmod's reflected 16-bit CRC with initial
register `0xFFFF & 0xFFFF` and no output xor. -/
def crc_func (data : List Nat) : Nat :=
  data.foldl crc16r_update (0xFFFF &&& 0xFFFF)

/-! ## Reference CRC algorithm, from the spec's words

"16-bit CRC, polynomial 0x1021, reflected (bit-reversed) computation,
initial register 0xFFFF, no final XOR.  Operates byte-at-a-time."
The reflected form of the algorithm xors each byte into the register and
performs eight LSB-first rounds with the bit-reversed polynomial. -/

/-- Bit-reversal of a 16-bit value: bit `i` of the input becomes bit
`15 - i` of the output. -/
def reflect16 (x : Nat) : Nat :=
  (List.range 16).foldl (fun acc i => acc + (if x.testBit i then 2 ^ (15 - i) else 0)) 0

def spec_poly : Nat := reflect16 0x1021

def crc16_ref_update (c b : Nat) : Nat := crc_rounds spec_poly 8 (c ^^^ b)

/-- The spec's reference CRC over a byte sequence. -/
def crc16_ref (data : List Nat) : Nat :=
  data.foldl crc16_ref_update 0xFFFF

/-! ## NSP command and file-id constants (driver.py lines 35-70) -/

def NSP_PING : Nat := 0x00
def NSP_INIT : Nat := 0x01
def NSP_PEEK : Nat := 0x02
def NSP_POKE : Nat := 0x03
def NSP_DIAGNOSTIC : Nat := 0x04
def NSP_CRC : Nat := 0x06
def NSP_READ_FILE : Nat := 0x07
def NSP_WRITE_FILE : Nat := 0x08

def nsp_command_codes : List Nat :=
  [NSP_PING, NSP_INIT, NSP_PEEK, NSP_POKE, NSP_DIAGNOSTIC, NSP_CRC,
   NSP_READ_FILE, NSP_WRITE_FILE]

def FILE_COMMAND_VALUE : Nat := 0x00
def FILE_VBUS : Nat := 0x03
def FILE_VCC : Nat := 0x08
def FILE_MEASURED_CURRENT : Nat := 0x1F
def FILE_TEMP0 : Nat := 0x10
def FILE_SPEED : Nat := 0x15
def FILE_MOMENTUM : Nat := 0x16
def FILE_INERTIA : Nat := 0x28

/-! ## Request construction (driver.py `_send_and_receive`, lines 171-185)

`control_byte = 0b10000000 | command.value`; the packet body is
`pack('<BB', wheel_addr, host_addr) + control_byte + payload`; the CRC of
the body is appended as two little-endian bytes; the result is
SLIP-encoded and written to the serial port. -/

/-- `n.to_bytes(2, 'little')` for `n < 2^16`. -/
def le2 (n : Nat) : List Nat := [n % 256, n / 256 % 256]

def control_byte (command : Nat) : Nat := 0b10000000 ||| command

def packet_body (wheel_addr host_addr command : Nat) (payload : List Nat) : List Nat :=
  [wheel_addr, host_addr, control_byte command] ++ payload

def full_packet (wheel_addr host_addr command : Nat) (payload : List Nat) : List Nat :=
  packet_body wheel_addr host_addr command payload
    ++ le2 (crc_func (packet_body wheel_addr host_addr command payload))

def frame_to_send (wheel_addr host_addr command : Nat) (payload : List Nat) : List Nat :=
  slip_encode (full_packet wheel_addr host_addr command payload)

/-! ## Reply validation (driver.py `_send_and_receive`, lines 220-240)

After SLIP decoding, the driver raises `WheelError` when the packet is
shorter than 5 bytes, `WheelCrcError` when the trailing two bytes differ
from the CRC of the rest, `WheelNackError` when bit 5 of the third byte
is clear, and otherwise returns everything after the 3-byte header.
`WheelErr` keeps the raise sites apart; `wheelErrClass` records which
Python exception class each site raises (the timeout in the receive loop
and the invalid-frame / too-short raises all use the base `WheelError`;
CRC and NACK use the two subclasses). -/

inductive WheelErr where
  | timeout
  | invalidFrame
  | tooShort
  | crcMismatch
  | nack
deriving DecidableEq, Repr

inductive PyExcClass where
  | wheelError
  | wheelCrcError
  | wheelNackError
deriving DecidableEq, Repr

def wheelErrClass : WheelErr → PyExcClass
  | .timeout => .wheelError
  | .invalidFrame => .wheelError
  | .tooShort => .wheelError
  | .crcMismatch => .wheelCrcError
  | .nack => .wheelNackError

def validate_reply (packet : List Nat) : Except WheelErr (List Nat) :=
  if packet.length < 5 then .error .tooShort
  else if packet.drop (packet.length - 2) ≠
      le2 (crc_func (packet.take (packet.length - 2))) then .error .crcMismatch
  else if (packet.take (packet.length - 2)).getD 2 0 &&& 0b00100000 = 0 then
    .error .nack
  else .ok ((packet.take (packet.length - 2)).drop 3)

/-! ## READ_FILE reply handling (driver.py `read_vbus` etc.)

Each convenience reader runs
`file_addr, value = struct.unpack('<Bf', reply)` and only then compares
`file_addr` with the requested file id, raising the base `WheelError`
("Wheel replied with wrong file!") on mismatch and returning `value`
otherwise.  `struct.unpack('<Bf', ...)` demands exactly 5 input bytes and
raises `struct.error` — not a `WheelError` — on any other length.
`decode_f32_le` is the little-endian IEEE-754 binary32 interpretation of
the four value bytes. -/

inductive ReadErr where
  | structError
  | wrongFile
deriving DecidableEq, Repr

/-- Whether the exception is part of the `WheelError` family:
`struct.error` is not. -/
def readErrIsWheelError : ReadErr → Bool
  | .structError => false
  | .wrongFile => true

/-- Little-endian word value of a byte list. -/
def le_word (bs : List Nat) : Nat := bs.foldr (fun b acc => b + 256 * acc) 0

inductive Float32 where
  | nan
  | inf (negative : Bool)
  | finite (value : ℚ)
deriving DecidableEq, Repr

/-- IEEE-754 binary32 interpretation of four little-endian bytes, as
`struct.unpack('<f', ...)` performs it (NaN payloads collapsed). -/
def decode_f32_le (bs : List Nat) : Float32 :=
  let w : Nat := le_word bs
  let sign : Prop := w / 2 ^ 31 % 2 = 1
  let e : Nat := w / 2 ^ 23 % 2 ^ 8
  let m : Nat := w % 2 ^ 23
  if e = 255 then (if m = 0 then .inf (decide sign) else .nan)
  else
    let mag : ℚ := if e = 0 then m * (2 ^ 149)⁻¹ else (2 ^ 23 + m) * 2 ^ ((e : ℤ) - 150)
    .finite (if sign then -mag else mag)

def read_file_reply (fileId : Nat) (reply : List Nat) : Except ReadErr Float32 :=
  if reply.length ≠ 5 then .error .structError
  else if reply.getD 0 0 ≠ fileId then .error .wrongFile
  else .ok (decode_f32_le (reply.drop 1))

def read_vbus_reply (reply : List Nat) : Except ReadErr Float32 :=
  read_file_reply FILE_VBUS reply

def read_vcc_reply (reply : List Nat) : Except ReadErr Float32 :=
  read_file_reply FILE_VCC reply

def read_speed_reply (reply : List Nat) : Except ReadErr Float32 :=
  read_file_reply FILE_SPEED reply

def read_momentum_reply (reply : List Nat) : Except ReadErr Float32 :=
  read_file_reply FILE_MOMENTUM reply

def read_current_reply (reply : List Nat) : Except ReadErr Float32 :=
  read_file_reply FILE_MEASURED_CURRENT reply

def read_inertia_reply (reply : List Nat) : Except ReadErr Float32 :=
  read_file_reply FILE_INERTIA reply

def read_temperature_reply (sensor_index : Nat) (reply : List Nat) : Except ReadErr Float32 :=
  read_file_reply (FILE_TEMP0 + sensor_index) reply

/-! ## Context-manager teardown (driver.py `ReactionWheel.__exit__`, lines 150-157)

`__exit__` ignores the exception-info arguments, runs `set_idle()` inside
a `try` whose handler only prints a warning, and then unconditionally
calls `self.close()`.  The trace below records the observable actions as
a function of whether an exception is propagating out of the `with` body
(ignored by the code) and whether `set_idle` raises. -/

inductive ExitAction where
  | commandIdle
  | warnIdleFailed
  | closePort
deriving DecidableEq, Repr

def exit_actions (_exc_pending idle_raises : Bool) : List ExitAction :=
  [.commandIdle] ++ (if idle_raises then [.warnIdleFailed] else []) ++ [.closePort]

/-! ## Discovery scanner (address_scanner.py, lines 34-60)

The loop walks `range(256)`, `continue`s on the host's own address, pings
each remaining address, `break`s with the address on success, treats any
exception (`except Exception: pass`) as no reply and keeps going, and
reports "no responding device found" through the `for`/`else` branch when
the sweep finishes.  A probe's outcome is a reply with an identity
string, or a raised exception identified by an arbitrary code (timeout,
CRC failure, NACK, ...). -/

inductive ProbeOutcome where
  | reply (identity : List Nat)
  | raised (exc : Nat)
deriving DecidableEq, Repr

def probe_replied : ProbeOutcome → Bool
  | .reply _ => true
  | .raised _ => false

def scan_loop (host : Nat) (probe : Nat → ProbeOutcome) : List Nat → Option Nat
  | [] => none
  | a :: rest =>
    if a = host then scan_loop host probe rest
    else
      match probe a with
      | .reply _ => some a
      | .raised _ => scan_loop host probe rest

def scan_addresses (host : Nat) (probe : Nat → ProbeOutcome) : Option Nat :=
  scan_loop host probe (List.range 256)

/-! ## Helper lemmas for SLIP framing -/

lemma slip_decode_loop_escaped (p : List Nat) :
    slip_decode_loop (slip_encode_body p) = some p := by
  induction p with
  | nil => rfl
  | cons b p ih =>
    rw [slip_encode_body]
    by_cases h1 : b = FEND
    · subst h1
      simp [slip_escape_byte, slip_decode_loop, ih, FEND, FESC, TFEND, TFESC]
    · by_cases h2 : b = FESC
      · subst h2
        simp [slip_escape_byte, slip_decode_loop, ih, FEND, FESC, TFEND, TFESC]
      · rw [show slip_escape_byte b = [b] by simp [slip_escape_byte, h1, h2]]
        rw [slip_decode_loop.eq_def]
        simp only [List.cons_append, List.nil_append, if_neg h2, ih, Option.map_some']

lemma slip_encode_eq_concat (p : List Nat) :
    slip_encode p = (FEND :: slip_encode_body p) ++ [FEND] := by
  simp [slip_encode]

lemma slip_encode_getLast? (p : List Nat) : (slip_encode p).getLast? = some FEND := by
  rw [slip_encode_eq_concat]
  exact List.getLast?_concat _

lemma slip_encode_interior (p : List Nat) :
    ((slip_encode p).drop 1).dropLast = slip_encode_body p := by
  rw [slip_encode_eq_concat]
  simp [List.dropLast_concat]

lemma slip_decode_loop_eq_none : ∀ xs : List Nat,
    (slip_decode_loop xs = none ↔ dangling_esc xs = true)
  | [] => by simp [slip_decode_loop, dangling_esc]
  | [b] => by
    by_cases h : b = FESC
    · subst h
      simp [slip_decode_loop, dangling_esc]
    · simp [slip_decode_loop, dangling_esc, h]
  | b :: t :: rest => by
    by_cases h : b = FESC
    · have ih := slip_decode_loop_eq_none rest
      subst h
      simp [slip_decode_loop, dangling_esc, ih]
    · have ih := slip_decode_loop_eq_none (t :: rest)
      simpa [slip_decode_loop, dangling_esc, h] using ih

/-- C2: framing round-trip — for every byte sequence `p`, SLIP-decoding
the SLIP-encoding of `p` succeeds and returns exactly `p`. -/
theorem slip_roundtrip (p : List Nat) (hbytes : ∀ b ∈ p, b < 256) :
    slip_decode (slip_encode p) = .ok p := by
  have hb := slip_decode_loop_escaped p
  have hhead : (slip_encode p).head? = some FEND := by simp [slip_encode]
  unfold slip_decode
  rw [if_pos ⟨hhead, slip_encode_getLast? p⟩, slip_encode_interior, hb]

theorem slip_roundtrip_witness :
    (∀ b ∈ [0xC0, 0xDB, 0x41], b < 256) ∧
    slip_decode (slip_encode [0xC0, 0xDB, 0x41]) = .ok [0xC0, 0xDB, 0x41] :=
  ⟨by decide, slip_roundtrip [0xC0, 0xDB, 0x41] (by decide)⟩

/-- C3 counterexample: the frame `C0 DB 41 C0` begins and ends with the
delimiter but contains an escape marker followed by `0x41`, which is
neither transposed code; the claim says decoding must fail (return none),
yet `_slip_decode` succeeds, silently dropping the invalid escape pair. -/
theorem slip_decode_invalid_escape_succeeds :
    slip_decode [0xC0, 0xDB, 0x41, 0xC0] = .ok [] ∧
    slip_decode [0xC0, 0xDB, 0x41, 0xC0] ≠ .noneResult := by decide

/-- C3 (amended): `_slip_decode` returns `None` exactly when the frame
does not both begin and end with the delimiter `0xC0`.  For a properly
delimited frame, an escape marker that is the last interior byte makes
the decoder read past the end of the buffer (an `IndexError` crash, not a
`None` return), and otherwise decoding succeeds: an escape marker
followed by a byte that is neither `0xDC` nor `0xDD` is silently dropped
rather than rejected. -/
theorem slip_decode_failure_characterization (frame : List Nat) :
    (slip_decode frame = .noneResult ↔
      ¬ (frame.head? = some FEND ∧ frame.getLast? = some FEND)) ∧
    (frame.head? = some FEND → frame.getLast? = some FEND →
      ((slip_decode frame = .indexError ↔
          dangling_esc ((frame.drop 1).dropLast) = true) ∧
       (dangling_esc ((frame.drop 1).dropLast) = false →
          ∃ d, slip_decode frame = .ok d))) := by
  constructor
  · by_cases h : frame.head? = some FEND ∧ frame.getLast? = some FEND
    · unfold slip_decode
      rw [if_pos h]
      cases hd : slip_decode_loop ((frame.drop 1).dropLast) with
      | none => simp [h]
      | some d => simp [h]
    · unfold slip_decode
      rw [if_neg h]
      simp [h]
  · intro h1 h2
    unfold slip_decode
    rw [if_pos ⟨h1, h2⟩]
    constructor
    · cases hd : slip_decode_loop ((frame.drop 1).dropLast) with
      | none => exact iff_of_true rfl ((slip_decode_loop_eq_none _).mp hd)
      | some d =>
        have hnd : ¬ dangling_esc ((frame.drop 1).dropLast) = true := by
          intro hc
          rw [(slip_decode_loop_eq_none _).mpr hc] at hd
          cases hd
        exact iff_of_false (by simp) hnd
    · intro hnd
      cases hd : slip_decode_loop ((frame.drop 1).dropLast) with
      | none =>
        rw [(slip_decode_loop_eq_none _).mp hd] at hnd
        cases hnd
      | some d => exact ⟨d, rfl⟩

theorem slip_decode_failure_characterization_witness :
    slip_decode [0xC0, 0xDB, 0xC0] = .indexError ∧
    slip_decode [0x41] = .noneResult := by
  constructor
  · exact (((slip_decode_failure_characterization [0xC0, 0xDB, 0xC0]).2
      (by decide) (by decide)).1).mpr (by decide)
  · exact ((slip_decode_failure_characterization [0x41]).1).mpr (by decide)

/-! ## Helper lemmas for the CRC equivalence -/

lemma xor_div_two (a b : Nat) : (a ^^^ b) / 2 = a / 2 ^^^ b / 2 := by
  apply Nat.eq_of_testBit_eq
  intro i
  simp [Nat.testBit_div_two, Nat.testBit_xor]

lemma xor_mod_two_of_even (a b : Nat) (hb : b % 2 = 0) : (a ^^^ b) % 2 = a % 2 := by
  have h1 := Nat.testBit_xor a b 0
  rw [Nat.testBit_zero, Nat.testBit_zero, Nat.testBit_zero, hb] at h1
  have ha := Nat.mod_two_eq_zero_or_one a
  have hx := Nat.mod_two_eq_zero_or_one (a ^^^ b)
  rcases ha with ha | ha <;> rcases hx with hx | hx <;> simp [ha, hx] at h1 ⊢

lemma crc_round_xor_even (poly x e : Nat) (he : e % 2 = 0) :
    crc_round poly (x ^^^ e) = crc_round poly x ^^^ e / 2 := by
  unfold crc_round
  rw [xor_mod_two_of_even x e he, xor_div_two]
  by_cases h : x % 2 = 1
  · rw [if_pos h, if_pos h, Nat.xor_assoc, Nat.xor_assoc, Nat.xor_comm (e / 2) poly]
  · rw [if_neg h, if_neg h]

lemma crc_rounds_xor_shifted (poly : Nat) :
    ∀ n x y, crc_rounds poly n (x ^^^ y * 2 ^ n) = crc_rounds poly n x ^^^ y := by
  intro n
  induction n with
  | zero => intro x y; simp [crc_rounds]
  | succ n ih =>
    intro x y
    have he : (y * 2 ^ (n + 1)) % 2 = 0 := by
      rw [pow_succ, ← Nat.mul_assoc]
      exact Nat.mul_mod_left _ 2
    have hdiv : y * 2 ^ (n + 1) / 2 = y * 2 ^ n := by
      rw [pow_succ, ← Nat.mul_assoc]
      exact Nat.mul_div_cancel _ (by norm_num)
    rw [crc_rounds, crc_rounds, crc_round_xor_even poly x _ he, hdiv, ih]

lemma mod_xor_div_mul (m : Nat) : (m % 256) ^^^ (m / 256) * 256 = m := by
  apply Nat.eq_of_testBit_eq
  intro i
  rw [Nat.testBit_xor,
    show ((m / 256) * 256 = 2 ^ 8 * (m / 2 ^ 8)) by rw [Nat.mul_comm]; norm_num,
    Nat.testBit_mul_pow_two,
    show ((256 : Nat) = 2 ^ 8) by norm_num,
    Nat.testBit_mod_two_pow, ← Nat.shiftRight_eq_div_pow, Nat.testBit_shiftRight]
  rcases Nat.lt_or_ge i 8 with h | h
  · have h2 : ¬ 8 ≤ i := by omega
    simp [h, h2]
  · have h2 : ¬ i < 8 := by omega
    have h3 : 8 + (i - 8) = i := by omega
    simp [h, h2, h3]

lemma xor_byte_div_256 (c b : Nat) (hb : b < 256) : (c ^^^ b) / 256 = c / 256 := by
  apply Nat.eq_of_testBit_eq
  intro i
  rw [show ((256 : Nat) = 2 ^ 8) by norm_num, ← Nat.shiftRight_eq_div_pow,
    ← Nat.shiftRight_eq_div_pow, Nat.testBit_shiftRight, Nat.testBit_shiftRight,
    Nat.testBit_xor]
  have hbf : b.testBit (8 + i) = false := by
    apply Nat.testBit_lt_two_pow
    calc b < 256 := hb
    _ = 2 ^ 8 := by norm_num
    _ ≤ 2 ^ (8 + i) := Nat.pow_le_pow_right (by norm_num) (by omega)
  rw [hbf, Bool.xor_false]

lemma crcmod_poly_eq_spec_poly : crcmod_poly = spec_poly := by decide

/-- crcmod's table step on one byte agrees with eight direct LSB-first
rounds on the xor-ed register. -/
lemma crc16r_update_eq_ref (c b : Nat) (hb : b < 256) :
    crc16r_update c b = crc16_ref_update c b := by
  unfold crc16r_update crc16_ref_update crcmod_table
  rw [crcmod_poly_eq_spec_poly,
    show ((0xFF : Nat) = 2 ^ 8 - 1) by norm_num,
    Nat.and_pow_two_sub_one_eq_mod, Nat.shiftRight_eq_div_pow]
  rw [show ((2 : Nat) ^ 8 = 256) by norm_num]
  rw [show (c / 256 = (c ^^^ b) / 256) from (xor_byte_div_256 c b hb).symm]
  conv_rhs => rw [← mod_xor_div_mul (c ^^^ b)]
  rw [show (((c ^^^ b) / 256) * 256 = ((c ^^^ b) / 256) * 2 ^ 8) by norm_num,
    crc_rounds_xor_shifted]

lemma crc_fold_eq_ref :
    ∀ (data : List Nat) (c : Nat), (∀ b ∈ data, b < 256) →
      data.foldl crc16r_update c = data.foldl crc16_ref_update c := by
  intro data
  induction data with
  | nil => intro c _; rfl
  | cons b rest ih =>
    intro c h
    have hb : b < 256 := h b (List.mem_cons_self b rest)
    have hrest : ∀ x ∈ rest, x < 256 := fun x hx => h x (List.mem_cons_of_mem b hx)
    simp only [List.foldl_cons, crc16r_update_eq_ref c b hb]
    exact ih _ hrest

/-- C1: the driver's CRC function (crcmod with polynomial 0x11021,
initCrc 0xFFFF, rev=True, xorOut 0) agrees with the reference reflected
CRC-16 — polynomial 0x1021, bit-reversed computation, initial register
0xFFFF, no final xor — on every byte sequence, and the result is a
16-bit unsigned integer. -/
theorem crc_func_eq_ref (data : List Nat) (hbytes : ∀ b ∈ data, b < 256) :
    crc_func data = crc16_ref data ∧ crc16_ref data < 2 ^ 16 := by
  constructor
  · unfold crc_func crc16_ref
    rw [show ((0xFFFF : Nat) &&& 0xFFFF = 0xFFFF) by decide]
    exact crc_fold_eq_ref data 0xFFFF hbytes
  · unfold crc16_ref
    have hround : ∀ c, c < 2 ^ 16 → crc_round spec_poly c < 2 ^ 16 := by
      intro c hc
      unfold crc_round
      have hd : c / 2 < 2 ^ 16 := Nat.lt_of_le_of_lt (Nat.div_le_self c 2) hc
      by_cases h : c % 2 = 1
      · rw [if_pos h]
        exact Nat.xor_lt_two_pow hd (by decide)
      · rw [if_neg h]
        exact hd
    have hrounds : ∀ n c, c < 2 ^ 16 → crc_rounds spec_poly n c < 2 ^ 16 := by
      intro n
      induction n with
      | zero => intro c hc; exact hc
      | succ n ih => intro c hc; exact ih _ (hround c hc)
    have hupd : ∀ c b, c < 2 ^ 16 → b < 256 → crc16_ref_update c b < 2 ^ 16 := by
      intro c b hc hb
      unfold crc16_ref_update
      exact hrounds 8 _ (Nat.xor_lt_two_pow hc (by omega))
    have hfold : ∀ (l : List Nat) (c : Nat), (∀ b ∈ l, b < 256) → c < 2 ^ 16 →
        l.foldl crc16_ref_update c < 2 ^ 16 := by
      intro l
      induction l with
      | nil => intro c _ hc; exact hc
      | cons b rest ih =>
        intro c h hc
        exact ih _ (fun x hx => h x (List.mem_cons_of_mem b hx))
          (hupd c b hc (h b (List.mem_cons_self b rest)))
    exact hfold data 0xFFFF hbytes (by norm_num)

set_option maxRecDepth 4000 in
theorem crc_func_eq_ref_witness :
    (∀ b ∈ [0x31, 0x32, 0x33, 0x34, 0x35, 0x36, 0x37, 0x38, 0x39], b < 256) ∧
    crc_func [0x31, 0x32, 0x33, 0x34, 0x35, 0x36, 0x37, 0x38, 0x39] =
      crc16_ref [0x31, 0x32, 0x33, 0x34, 0x35, 0x36, 0x37, 0x38, 0x39] ∧
    crc16_ref [0x31, 0x32, 0x33, 0x34, 0x35, 0x36, 0x37, 0x38, 0x39] < 2 ^ 16 ∧
    crc_func [0x31, 0x32, 0x33, 0x34, 0x35, 0x36, 0x37, 0x38, 0x39] = 0x6F91 :=
  ⟨by decide,
   (crc_func_eq_ref [0x31, 0x32, 0x33, 0x34, 0x35, 0x36, 0x37, 0x38, 0x39] (by decide)).1,
   (crc_func_eq_ref [0x31, 0x32, 0x33, 0x34, 0x35, 0x36, 0x37, 0x38, 0x39] (by decide)).2,
   by decide⟩

/-- C4: every transmitted request is the SLIP encoding of
`[device address][host address][control byte][payload][crc little-endian]`
where the control byte has the Poll bit (bit 7) set, the ACK bit (bit 5)
clear, its low five bits equal to the command code, and the trailing CRC
is computed over all preceding packet bytes. -/
theorem request_frame_layout (wheel_addr host_addr command : Nat) (p : List Nat)
    (hc : command < 32) :
    frame_to_send wheel_addr host_addr command p =
      slip_encode ([wheel_addr, host_addr, control_byte command] ++ p
        ++ le2 (crc_func ([wheel_addr, host_addr, control_byte command] ++ p))) ∧
    (control_byte command).testBit 7 = true ∧
    (control_byte command).testBit 5 = false ∧
    control_byte command % 32 = command := by
  have key : ∀ c < 32, (128 ||| c).testBit 7 = true ∧ (128 ||| c).testBit 5 = false ∧
      (128 ||| c) % 32 = c := by set_option maxRecDepth 4000 in decide
  obtain ⟨k7, k5, klow⟩ := key command hc
  exact ⟨rfl, k7, k5, klow⟩

theorem request_frame_layout_witness :
    NSP_PING < 32 ∧
    (frame_to_send 0x3A 0x11 NSP_PING [] =
      slip_encode ([0x3A, 0x11, control_byte NSP_PING] ++ []
        ++ le2 (crc_func ([0x3A, 0x11, control_byte NSP_PING] ++ []))) ∧
     (control_byte NSP_PING).testBit 7 = true ∧
     (control_byte NSP_PING).testBit 5 = false ∧
     control_byte NSP_PING % 32 = NSP_PING) :=
  ⟨by decide, request_frame_layout 0x3A 0x11 NSP_PING [] (by decide)⟩

/-- C5: a decoded reply shorter than 5 bytes always fails with the length
error (a total function — no panic is possible), and a reply of at least
5 bytes whose trailing two bytes differ from the CRC of the preceding
bytes fails with the CRC error, whose exception class is distinct from
the class raised on timeout. -/
theorem validate_reply_length_and_crc (packet : List Nat) :
    (packet.length < 5 → validate_reply packet = .error .tooShort) ∧
    (5 ≤ packet.length →
      packet.drop (packet.length - 2) ≠
        le2 (crc_func (packet.take (packet.length - 2))) →
      validate_reply packet = .error .crcMismatch ∧
      wheelErrClass .crcMismatch ≠ wheelErrClass .timeout) := by
  constructor
  · intro h
    unfold validate_reply
    rw [if_pos h]
  · intro h5 hcrc
    have hn : ¬ packet.length < 5 := Nat.not_lt.mpr h5
    refine ⟨?_, by decide⟩
    unfold validate_reply
    rw [if_neg hn, if_pos hcrc]

set_option maxRecDepth 8000 in
theorem validate_reply_length_and_crc_witness :
    validate_reply [0x11, 0x3A, 0xA0] = .error .tooShort ∧
    validate_reply [0x11, 0x3A, 0xA0, 0x4F, 0x4B, 0x00, 0x00] = .error .crcMismatch := by
  constructor
  · exact (validate_reply_length_and_crc [0x11, 0x3A, 0xA0]).1 (by decide)
  · exact ((validate_reply_length_and_crc
      [0x11, 0x3A, 0xA0, 0x4F, 0x4B, 0x00, 0x00]).2 (by decide) (by decide)).1

/-- C6: for a reply that passes the length and CRC checks, a cleared ACK
bit (bit 5 of the third packet byte) always yields the NACK error
regardless of payload, and a set ACK bit returns exactly the bytes after
the 3-byte header and before the CRC. -/
theorem validate_reply_ack (packet : List Nat) (h5 : 5 ≤ packet.length)
    (hcrc : packet.drop (packet.length - 2) =
      le2 (crc_func (packet.take (packet.length - 2)))) :
    (packet.getD 2 0 &&& 0x20 = 0 → validate_reply packet = .error .nack) ∧
    (packet.getD 2 0 &&& 0x20 ≠ 0 →
      validate_reply packet = .ok ((packet.take (packet.length - 2)).drop 3)) := by
  have hn : ¬ packet.length < 5 := Nat.not_lt.mpr h5
  have hcond : ¬ packet.drop (packet.length - 2) ≠
      le2 (crc_func (packet.take (packet.length - 2))) := fun hne => hne hcrc
  have hbody : (packet.take (packet.length - 2)).getD 2 0 = packet.getD 2 0 := by
    rw [List.getD_eq_getElem?_getD, List.getD_eq_getElem?_getD, List.getElem?_take,
      if_pos (show 2 < packet.length - 2 by omega)]
  constructor
  · intro hack
    unfold validate_reply
    rw [if_neg hn, if_neg hcond, hbody, if_pos hack]
  · intro hack
    unfold validate_reply
    rw [if_neg hn, if_neg hcond, hbody, if_neg hack]

set_option maxRecDepth 8000 in
theorem validate_reply_ack_witness :
    validate_reply ([0x11, 0x3A, 0x80] ++ le2 (crc_func [0x11, 0x3A, 0x80])) =
      .error .nack ∧
    validate_reply ([0x11, 0x3A, 0xA0, 0x4F] ++ le2 (crc_func [0x11, 0x3A, 0xA0, 0x4F])) =
      .ok [0x4F] := by
  constructor
  · exact (validate_reply_ack ([0x11, 0x3A, 0x80] ++ le2 (crc_func [0x11, 0x3A, 0x80]))
      (by decide) (by decide)).1 (by decide)
  · have h := (validate_reply_ack
      ([0x11, 0x3A, 0xA0, 0x4F] ++ le2 (crc_func [0x11, 0x3A, 0xA0, 0x4F]))
      (by decide) (by decide)).2 (by decide)
    rw [h]
    decide


/-- C7: every READ_FILE convenience reader, applied to a validated 5-byte
reply payload, fails with the wrong-file error when the leading payload
byte differs from the requested file id, and otherwise returns the
little-endian IEEE-754 interpretation of the remaining four bytes; each
named reader is the generic check at its own file id. -/
theorem read_file_reply_echo_check (fileId : Nat) (reply : List Nat)
    (h5 : reply.length = 5) :
    (reply.getD 0 0 ≠ fileId → read_file_reply fileId reply = .error .wrongFile) ∧
    (reply.getD 0 0 = fileId →
      read_file_reply fileId reply = .ok (decode_f32_le (reply.drop 1))) ∧
    read_vbus_reply reply = read_file_reply FILE_VBUS reply ∧
    read_vcc_reply reply = read_file_reply FILE_VCC reply ∧
    read_speed_reply reply = read_file_reply FILE_SPEED reply ∧
    read_momentum_reply reply = read_file_reply FILE_MOMENTUM reply ∧
    read_current_reply reply = read_file_reply FILE_MEASURED_CURRENT reply ∧
    read_inertia_reply reply = read_file_reply FILE_INERTIA reply ∧
    (∀ sensor_index : Nat,
      read_temperature_reply sensor_index reply =
        read_file_reply (FILE_TEMP0 + sensor_index) reply) := by
  have hn : ¬ reply.length ≠ 5 := by omega
  refine ⟨fun hne => ?_, fun heq => ?_, rfl, rfl, rfl, rfl, rfl, rfl, fun _ => rfl⟩
  · unfold read_file_reply
    rw [if_neg hn, if_pos hne]
  · unfold read_file_reply
    rw [if_neg hn, if_neg (show ¬ reply.getD 0 0 ≠ fileId from fun hne => hne heq)]

theorem read_file_reply_echo_check_witness :
    read_file_reply FILE_SPEED [0x03, 0, 0, 0, 0] = .error .wrongFile ∧
    read_file_reply FILE_VBUS [0x03, 0, 0, 0, 0] =
      .ok (decode_f32_le [0, 0, 0, 0]) :=
  ⟨(read_file_reply_echo_check FILE_SPEED [0x03, 0, 0, 0, 0] (by decide)).1 (by decide),
   (read_file_reply_echo_check FILE_VBUS [0x03, 0, 0, 0, 0] (by decide)).2.1 (by decide)⟩

/-- C10: the readers unpack the payload with the fixed 5-byte format
before the echo check, so any payload that is not exactly 5 bytes raises
`struct.error`, which lies outside the `WheelError` family. -/
theorem read_file_reply_struct_error (fileId : Nat) (reply : List Nat)
    (hlen : reply.length ≠ 5) :
    read_file_reply fileId reply = .error .structError ∧
    readErrIsWheelError .structError = false :=
  ⟨by simp [read_file_reply, hlen], rfl⟩

theorem read_file_reply_struct_error_witness :
    read_file_reply FILE_VBUS [0x03, 0, 0, 0] = .error .structError ∧
    readErrIsWheelError .structError = false :=
  read_file_reply_struct_error FILE_VBUS [0x03, 0, 0, 0] (by decide)

/-- C8: on context-manager teardown — whether or not an exception is
propagating, and whether or not the idle command fails — the driver first
attempts the safe-IDLE command and the close step always runs last. -/
theorem exit_always_closes (exc_pending idle_raises : Bool) :
    (exit_actions exc_pending idle_raises).head? = some .commandIdle ∧
    (exit_actions exc_pending idle_raises).getLast? = some .closePort ∧
    ExitAction.closePort ∈ exit_actions exc_pending idle_raises := by
  cases exc_pending <;> cases idle_raises <;> decide

lemma scan_loop_eq_filter_head (host : Nat) (probe : Nat → ProbeOutcome) :
    ∀ l : List Nat, scan_loop host probe l =
      (l.filter fun a => (a != host) && probe_replied (probe a)).head? := by
  intro l
  induction l with
  | nil => rfl
  | cons a rest ih =>
    by_cases ha : a = host
    · simp [scan_loop, ha, ih, List.filter_cons]
    · cases hp : probe a with
      | reply s => simp [scan_loop, ha, hp, probe_replied, List.filter_cons]
      | raised e => simp [scan_loop, ha, hp, probe_replied, ih, List.filter_cons]

/-- C9: the discovery sweep probes addresses 0..255 in increasing order,
skips the host's own address, stops at the first address whose ping
replies and reports it, treats every raised exception as no reply, and
reports not-found (`none`) when no address replies — the outcome depends
only on which probes reply, never on which exception a probe raised. -/
theorem scan_first_responder (host : Nat) (probe probe2 : Nat → ProbeOutcome)
    (hsame : ∀ a, probe_replied (probe a) = probe_replied (probe2 a)) :
    scan_addresses host probe =
      ((List.range 256).filter fun a => (a != host) && probe_replied (probe a)).head? ∧
    scan_addresses host probe = scan_addresses host probe2 := by
  constructor
  · exact scan_loop_eq_filter_head host probe (List.range 256)
  · unfold scan_addresses
    rw [scan_loop_eq_filter_head host probe (List.range 256),
      scan_loop_eq_filter_head host probe2 (List.range 256)]
    have : ∀ a ∈ List.range 256,
        ((a != host) && probe_replied (probe a)) =
        ((a != host) && probe_replied (probe2 a)) := by
      intro a _
      rw [hsame a]
    rw [List.filter_congr this]

theorem scan_first_responder_witness :
    scan_addresses 0x11 (fun a => if a = 0x20 then .reply [0x4F, 0x4B] else .raised 0) =
      some 0x20 ∧
    scan_addresses 0x11 (fun a => if a = 0x20 then .reply [0x4F, 0x4B] else .raised 0) =
      scan_addresses 0x11 (fun a => if a = 0x20 then .reply [] else .raised 1) := by
  have hsame : ∀ a : Nat,
      probe_replied (if a = 0x20 then ProbeOutcome.reply [0x4F, 0x4B] else .raised 0) =
      probe_replied (if a = 0x20 then ProbeOutcome.reply [] else .raised 1) := by
    intro a
    by_cases h : a = 0x20 <;> simp [h, probe_replied]
  have h := scan_first_responder 0x11
    (fun a => if a = 0x20 then .reply [0x4F, 0x4B] else .raised 0)
    (fun a => if a = 0x20 then .reply [] else .raised 1) hsame
  refine ⟨h.1.trans ?_, h.2⟩
  decide

end RwWheel
